import Mathlib

/-!
Verification development for the jivanu-rag repository.

Shallow embedding of the core components:
* `src/vectorstore/vectorstore.py` — `VectorStore` (incremental, file-deduplicated index)
* `src/node/rag_nodes.py` — `RAGNodes` (retrieve / generate_answer / parsing helpers)
* `src/conversation/conversation_manager.py` — `ConversationManager`
* `src/graph_builder/graph_builder.py` — `GraphBuilder.run`
* `src/config/config.py` — configuration constants (env-var defaults)

External collaborators (Chroma similarity search, the OpenAI chat/embedding
calls, and Python's `json.loads`) are modelled as explicit function arguments
or, for `json.loads`, as an executable JSON reader defined below.  Disk I/O is
modelled by explicit "disk" fields in the state records, and injectable fault
flags stand for the exceptions the corresponding library calls may raise.
-/

/-- JSON values, the result type of Python's `json.loads`.
Numbers are modelled as rationals (every JSON literal is a finite decimal). -/
inductive JVal where
  | jnull : JVal
  | jbool : Bool → JVal
  | jnum : ℚ → JVal
  | jstr : String → JVal
  | jarr : List JVal → JVal
  | jobj : List (String × JVal) → JVal
deriving Repr

/-- JSON whitespace characters (RFC 8259 / Python `json`). -/
def isJsonWs (c : Char) : Bool :=
  c == ' ' || c == '\t' || c == '\n' || c == '\r'

/-- Drop leading JSON whitespace. -/
def skipWs : List Char → List Char
  | [] => []
  | c :: t => if isJsonWs c then skipWs t else c :: t

/-- Numeric value of a hex digit, if any. -/
def hexDigit (c : Char) : Option Nat :=
  let n := c.toNat
  if 48 ≤ n ∧ n ≤ 57 then some (n - 48)
  else if 97 ≤ n ∧ n ≤ 102 then some (n - 87)
  else if 65 ≤ n ∧ n ≤ 70 then some (n - 55)
  else none

/-- Decimal value of a digit string. -/
def digitsToNat (ds : List Char) : Nat :=
  ds.foldl (fun n c => n * 10 + (c.toNat - 48)) 0

/-- JSON string-literal body reader (after the opening quote), fuelled. -/
def parseStrAux : Nat → List Char → List Char → Option (String × List Char)
  | 0, _, _ => none
  | f + 1, cs, acc =>
    match cs with
    | [] => none
    | c :: rest =>
      if c = '"' then some (String.mk acc.reverse, rest)
      else if c = '\\' then
        match rest with
        | [] => none
        | e :: r2 =>
          if e = '"' then parseStrAux f r2 ('"' :: acc)
          else if e = '\\' then parseStrAux f r2 ('\\' :: acc)
          else if e = '/' then parseStrAux f r2 ('/' :: acc)
          else if e = 'b' then parseStrAux f r2 ('\x08' :: acc)
          else if e = 'f' then parseStrAux f r2 ('\x0c' :: acc)
          else if e = 'n' then parseStrAux f r2 ('\n' :: acc)
          else if e = 'r' then parseStrAux f r2 ('\x0d' :: acc)
          else if e = 't' then parseStrAux f r2 ('\t' :: acc)
          else if e = 'u' then
            match r2 with
            | h1 :: h2 :: h3 :: h4 :: r3 =>
              match hexDigit h1, hexDigit h2, hexDigit h3, hexDigit h4 with
              | some a, some b, some c2, some d =>
                parseStrAux f r3 (Char.ofNat (((a * 16 + b) * 16 + c2) * 16 + d) :: acc)
              | _, _, _, _ => none
            | _ => none
          else none
      else parseStrAux f rest (c :: acc)

/-- Exponent suffix of a JSON number. -/
def parseExp (v : ℚ) (cs : List Char) : Option (ℚ × List Char) :=
  let (esign, cs1) :=
    match cs with
    | '+' :: t => (false, t)
    | '-' :: t => (true, t)
    | _ => (false, cs)
  let (es, cs2) := cs1.span Char.isDigit
  if es.isEmpty then none
  else some ((if esign then v / (10 : ℚ) ^ digitsToNat es else v * (10 : ℚ) ^ digitsToNat es), cs2)

/-- JSON number reader. -/
def parseNum (cs : List Char) : Option (ℚ × List Char) :=
  let (neg, cs1) :=
    match cs with
    | '-' :: t => (true, t)
    | _ => (false, cs)
  let (ds, cs2) := cs1.span Char.isDigit
  if ds.isEmpty then none
  else
    let ip : ℚ := (digitsToNat ds : ℕ)
    let fracStep : Option (ℚ × List Char) :=
      match cs2 with
      | '.' :: t =>
        let (fs, r) := t.span Char.isDigit
        if fs.isEmpty then none
        else some (ip + (digitsToNat fs : ℚ) / (10 : ℚ) ^ fs.length, r)
      | _ => some (ip, cs2)
    match fracStep with
    | none => none
    | some (v1, cs3) =>
      let expStep : Option (ℚ × List Char) :=
        match cs3 with
        | 'e' :: t => parseExp v1 t
        | 'E' :: t => parseExp v1 t
        | _ => some (v1, cs3)
      match expStep with
      | none => none
      | some (v2, cs4) => some ((if neg then -v2 else v2), cs4)

/-- Boolean substring check used by the literal keywords and the fence search. -/
def isPref : List Char → List Char → Bool
  | [], _ => true
  | _ :: _, [] => false
  | a :: as, b :: bs => a == b && isPref as bs

/-- Consume a fixed literal. -/
def dropLit (lit : List Char) (cs : List Char) : Option (List Char) :=
  if isPref lit cs then some (cs.drop lit.length) else none

mutual

/-- JSON value reader (fuelled recursive descent). -/
def parseVal : Nat → List Char → Option (JVal × List Char)
  | 0, _ => none
  | f + 1, cs =>
    match skipWs cs with
    | [] => none
    | c :: rest =>
      if c = '"' then
        match parseStrAux (rest.length + 1) rest [] with
        | some (s, r) => some (JVal.jstr s, r)
        | none => none
      else if c = '\x7b' then
        match skipWs rest with
        | '\x7d' :: r2 => some (JVal.jobj [], r2)
        | r2 =>
          match parseMembers f r2 with
          | some (kvs, r3) => some (JVal.jobj kvs, r3)
          | none => none
      else if c = '[' then
        match skipWs rest with
        | ']' :: r2 => some (JVal.jarr [], r2)
        | r2 =>
          match parseItems f r2 with
          | some (xs, r3) => some (JVal.jarr xs, r3)
          | none => none
      else if c = 't' then
        match dropLit ('t' :: 'r' :: 'u' :: 'e' :: []) (c :: rest) with
        | some r => some (JVal.jbool true, r)
        | none => none
      else if c = 'f' then
        match dropLit ('f' :: 'a' :: 'l' :: 's' :: 'e' :: []) (c :: rest) with
        | some r => some (JVal.jbool false, r)
        | none => none
      else if c = 'n' then
        match dropLit ('n' :: 'u' :: 'l' :: 'l' :: []) (c :: rest) with
        | some r => some (JVal.jnull, r)
        | none => none
      else
        match parseNum (c :: rest) with
        | some (q, r) => some (JVal.jnum q, r)
        | none => none

/-- Members of a JSON object after the opening brace (nonempty case). -/
def parseMembers : Nat → List Char → Option (List (String × JVal) × List Char)
  | 0, _ => none
  | f + 1, cs =>
    match skipWs cs with
    | '"' :: rest =>
      match parseStrAux (rest.length + 1) rest [] with
      | some (k, r1) =>
        match skipWs r1 with
        | ':' :: r2 =>
          match parseVal f r2 with
          | some (v, r3) =>
            match skipWs r3 with
            | ',' :: r4 =>
              (match parseMembers f r4 with
               | some (kvs, r5) => some ((k, v) :: kvs, r5)
               | none => none)
            | '\x7d' :: r4 => some ([(k, v)], r4)
            | _ => none
          | none => none
        | _ => none
      | none => none
    | _ => none

/-- Items of a JSON array after the opening bracket (nonempty case). -/
def parseItems : Nat → List Char → Option (List JVal × List Char)
  | 0, _ => none
  | f + 1, cs =>
    match parseVal f cs with
    | some (v, r1) =>
      match skipWs r1 with
      | ',' :: r2 =>
        (match parseItems f r2 with
         | some (xs, r3) => some (v :: xs, r3)
         | none => none)
      | ']' :: r2 => some ([v], r2)
      | _ => none
    | none => none

end

/-- Model of Python's `json.loads`: reads one JSON value and requires the rest
of the input to be whitespace; any leftover or failure raises
`JSONDecodeError`, modelled as `none`. -/
def jsonLoads (s : String) : Option JVal :=
  let cs := s.data
  match parseVal (cs.length + 1) cs with
  | some (v, rest) => if (skipWs rest).isEmpty then some v else none
  | none => none

/-- Characters removed by Python's `str.strip()` (ASCII fragment). -/
def isPySpace (c : Char) : Bool :=
  c == ' ' || c == '\t' || c == '\n' || c == '\r' || c == '\x0b' || c == '\x0c'

/-- Drop leading stripped characters. -/
def dropWsList : List Char → List Char
  | [] => []
  | c :: t => if isPySpace c then dropWsList t else c :: t

/-- Python `s.strip()`: remove leading and trailing whitespace. -/
def pyStrip (s : String) : String :=
  String.mk ((dropWsList (dropWsList s.data).reverse).reverse)

/-- Python `str.find(sub)` scan: first index where `pat` starts, else `none`. -/
def findGo (pat : List Char) : List Char → Nat → Option Nat
  | [], i => if isPref pat [] then some i else none
  | c :: t, i => if isPref pat (c :: t) then some i else findGo pat t (i + 1)

/-- Python `str.rfind(sub)` scan: last index where `pat` starts, else `none`. -/
def rfindGo (pat : List Char) : List Char → Nat → Option Nat → Option Nat
  | [], i, best => if isPref pat [] then some i else best
  | c :: t, i, best =>
    rfindGo pat t (i + 1) (if isPref pat (c :: t) then some i else best)

/-- Python `hay.find(pat)` (as `Option`; Python returns -1 for `none`). -/
def findSub (hay pat : String) : Option Nat :=
  findGo pat.data hay.data 0

/-- Python `hay.rfind(pat)` (as `Option`; Python returns -1 for `none`). -/
def rfindSub (hay pat : String) : Option Nat :=
  rfindGo pat.data hay.data 0 none

/-- Python `pat in hay` substring test. -/
def containsSub (hay pat : String) : Bool :=
  (findSub hay pat).isSome

/-- Python `s[a:b]` for nonnegative bounds (empty when `b ≤ a`). -/
def pySlice (s : String) (a b : Nat) : String :=
  String.mk ((s.data.drop a).take (b - a))

/-- Python `s[:n]` (slice of the first `n` characters). -/
def pyTake (n : Nat) (s : String) : String :=
  String.mk (s.data.take n)

/-- The fence-stripping step of `RAGNodes._parse_llm_response`
(`src/node/rag_nodes.py` lines 313-323): remove one optional markdown
code-fence layer, then strip whitespace. -/
def extractJsonText (text : String) : String :=
  if containsSub text "```json" then
    let st := (findSub text "```json").getD 0 + 7
    let en := (rfindSub text "```").getD 0
    pyStrip (pySlice text st en)
  else if containsSub text "```" then
    let st := (findSub text "```").getD 0 + 3
    let en := (rfindSub text "```").getD 0
    pyStrip (pySlice text st en)
  else pyStrip text

/-- The fallback dictionary of `RAGNodes._parse_llm_response`
(lines 330-339): the whole raw response becomes the answer. -/
def parseFallback (text : String) : JVal :=
  JVal.jobj [("answer", JVal.jstr text), ("reasoning", JVal.jstr ""),
    ("hypothesis", JVal.jstr ""), ("suggestions", JVal.jarr []),
    ("sources", JVal.jarr []), ("confidence", JVal.jnum (1 / 2))]

/-- `RAGNodes._parse_llm_response` (lines 301-339): strip one optional fence
layer, `json.loads` the remainder, and on `JSONDecodeError` fall back to a
dictionary whose answer is the raw response text. -/
def parse_llm_response (text : String) : JVal :=
  match jsonLoads (extractJsonText text) with
  | some v => v
  | none => parseFallback text

/-- `Config.MAX_HISTORY_TURNS` (`src/config/config.py` line 41, env default). -/
def Config.MAX_HISTORY_TURNS : Nat := 8

/-- `Config.RETRIEVAL_K` (`src/config/config.py` line 38, env default). -/
def Config.RETRIEVAL_K : Nat := 10

/-- One formatted turn of `RAGNodes._format_history` (line 297):
`f"{role.upper()}: {message[:200]}"`. -/
def formatTurn (t : String × String) : String :=
  t.1.toUpper ++ ": " ++ pyTake 200 t.2

/-- The window `history[-Config.MAX_HISTORY_TURNS:]` kept by
`RAGNodes._format_history` (line 293). -/
def recentTurns (history : List (String × String)) : List (String × String) :=
  history.drop (history.length - Config.MAX_HISTORY_TURNS)

/-- The individual lines joined by `RAGNodes._format_history` (lines 295-299). -/
def recentLines (history : List (String × String)) : List String :=
  (recentTurns history).map formatTurn

/-- `RAGNodes._format_history` (lines 287-299). -/
def format_history (history : List (String × String)) : String :=
  if history.isEmpty then "No previous conversation"
  else "\n".intercalate (recentLines history)

/-- Document metadata as read by the core (`doc.metadata.get(...)` keys
`source`, `page`, `type`, `pdf_name`); a missing key is `none`. -/
structure DocMeta where
  source : Option String
  page : Option Int
  type : Option String
  pdf_name : Option String
deriving Repr, DecidableEq

/-- A langchain `Document`: page content plus metadata. -/
structure Document where
  page_content : String
  metadata : DocMeta
deriving Repr, DecidableEq

/-- `doc.metadata.get("pdf_name", "unknown")` as used throughout
`vectorstore.py` and `rag_nodes.py`. -/
def getPdfName (d : Document) : String :=
  d.metadata.pdf_name.getD "unknown"

/-- `RAGState` (`src/state/rag_state.py`): the pydantic state record.
`confidence_score` is a Python float; modelled as a rational. -/
structure RAGState where
  question : String
  retrieved_docs : List Document
  answer : String
  reasoning : String
  hypothesis : String
  suggestions : List String
  sources : List JVal
  chat_history : List (String × String)
  confidence_score : ℚ
deriving Repr

/-- A fresh `RAGState(question=..., chat_history=...)` with pydantic defaults
(`graph_builder.py` lines 66-69). -/
def initRAGState (question : String) (chat_history : List (String × String)) : RAGState :=
  { question := question, retrieved_docs := [], answer := "", reasoning := "",
    hypothesis := "", suggestions := [], sources := [], chat_history := chat_history,
    confidence_score := 0 }

/-- One entry of `sources_list` in `RAGNodes.generate_answer` (lines 77-83):
the chunk's metadata with defaults applied, as a JSON dictionary. -/
def sourceEntry (i : Nat) (d : Document) : JVal :=
  JVal.jobj [("index", JVal.jnum (i : ℕ)),
    ("source", JVal.jstr (d.metadata.source.getD "unknown")),
    ("page", match d.metadata.page with
             | some n => JVal.jnum (n : ℤ)
             | none => JVal.jstr "N/A"),
    ("type", JVal.jstr (d.metadata.type.getD "page_text")),
    ("pdf_name", JVal.jstr (getPdfName d))]

/-- `sources_list` built with 1-based `enumerate` indices. -/
def sourcesFrom (i : Nat) : List Document → List JVal
  | [] => []
  | d :: ds => sourceEntry i d :: sourcesFrom (i + 1) ds

/-- `sources_list` of `RAGNodes.generate_answer` (lines 66-83): metadata of
`state.retrieved_docs[:15]`, enumerated from 1. -/
def sourcesList (docs : List Document) : List JVal :=
  sourcesFrom 1 (docs.take 15)

/-- The fallback `RAGState` of `RAGNodes.generate_answer` (lines 271-285),
taken when anything inside the `try` block raises. -/
def fallbackState (st : RAGState) (srcs : List JVal) : RAGState :=
  { question := st.question, retrieved_docs := st.retrieved_docs,
    answer := "I encountered an error generating a comprehensive answer. Please try rephrasing your question.",
    reasoning := "Error in LLM response generation", hypothesis := "",
    suggestions := ["Try rephrasing the question", "Check if documents are relevant"],
    sources := srcs, chat_history := st.chat_history, confidence_score := 0 }

/-- Python `dict.get(k)` on a JSON dictionary (first binding wins). -/
def jGet (kvs : List (String × JVal)) (k : String) : Option JVal :=
  (kvs.find? (fun p => p.1 == k)).map (fun p => p.2)

/-- `parsed.get(k, dflt)` landing in a pydantic `str` field: a missing key
yields the default, a non-string value raises (modelled as `none`). -/
def getStrField (kvs : List (String × JVal)) (k : String) (dflt : String) : Option String :=
  match jGet kvs k with
  | none => some dflt
  | some (JVal.jstr s) => some s
  | some _ => none

/-- `parsed.get("suggestions", [])` landing in a pydantic `List[str]` field. -/
def getStrListField (kvs : List (String × JVal)) (k : String) : Option (List String) :=
  match jGet kvs k with
  | none => some []
  | some (JVal.jarr xs) =>
    xs.mapM (fun v => match v with | JVal.jstr s => some s | _ => none)
  | some _ => none

/-- Whether a JSON value is a dictionary. -/
def isJObj : JVal → Bool
  | JVal.jobj _ => true
  | _ => false

/-- `parsed.get("sources", sources_list)` landing in a pydantic `List[dict]`
field: a missing key yields the default `sources_list`; a present list is
taken as-is (its elements must be dictionaries). -/
def getSourcesField (kvs : List (String × JVal)) (dflt : List JVal) : Option (List JVal) :=
  match jGet kvs "sources" with
  | none => some dflt
  | some (JVal.jarr xs) => if xs.all isJObj then some xs else none
  | some _ => none

/-- `parsed.get("confidence", 0.0)` landing in a pydantic `float` field. -/
def getNumField (kvs : List (String × JVal)) (k : String) (dflt : ℚ) : Option ℚ :=
  match jGet kvs k with
  | none => some dflt
  | some (JVal.jnum q) => some q
  | some _ => none

/-- `RAGNodes.generate_answer` (lines 53-285).  The completion call is an
external collaborator, passed as `llmResult` (`Except.error` models the call
raising).  After a successful call the response is parsed; a non-dictionary
parse result, or a field whose type pydantic rejects, raises inside the `try`
block and is caught by the same fallback as a gateway failure. -/
def generate_answer (llmResult : Except Unit String) (st : RAGState) : RAGState :=
  let srcs := sourcesList st.retrieved_docs
  match llmResult with
  | Except.error _ => fallbackState st srcs
  | Except.ok text =>
    match parse_llm_response text with
    | JVal.jobj kvs =>
      match getStrField kvs "answer" "Unable to generate answer",
            getStrField kvs "reasoning" "",
            getStrField kvs "hypothesis" "",
            getStrListField kvs "suggestions",
            getSourcesField kvs srcs,
            getNumField kvs "confidence" 0 with
      | some a, some r, some h, some sg, some so, some cf =>
        { question := st.question, retrieved_docs := st.retrieved_docs,
          answer := a, reasoning := r, hypothesis := h, suggestions := sg,
          sources := so, chat_history := st.chat_history, confidence_score := cf }
      | _, _, _, _, _, _ => fallbackState st srcs
    | _ => fallbackState st srcs

/-- `RAGNodes.retrieve_docs` (lines 30-51): calls the retriever (external,
passed as `search`) and rebuilds the state with pydantic defaults for the
generated fields. -/
def retrieve_docs (search : String → List Document) (st : RAGState) : RAGState :=
  { question := st.question, retrieved_docs := search st.question,
    answer := "", reasoning := "", hypothesis := "", suggestions := [],
    sources := [], chat_history := st.chat_history, confidence_score := 0 }

/-- Membership in the Python set of indexed file names (modelled as a
duplicate-free list). -/
def memb : List String → String → Bool
  | [], _ => false
  | b :: l, a => a == b || memb l a

/-- Set insertion preserving the list representation. -/
def insertNew (l : List String) (a : String) : List String :=
  if memb l a then l else a :: l

/-- Python `set.update`: fold the new names into the set. -/
def unionFiles (idx : List String) : List String → List String
  | [] => idx
  | f :: fs => unionFiles (insertNew idx f) fs

/-- The chunk filter of `VectorStore` (lines 93 and 164):
`doc.page_content and len(doc.page_content.strip()) > 20`. -/
def keepDoc (d : Document) : Bool :=
  d.page_content ≠ "" && (pyStrip d.page_content).length > 20

/-- Injectable faults standing for exceptions of the persistence layer:
`add_fails` makes `Chroma.from_texts` / `add_texts` raise, `save_fails` makes
the `open(...,'w')` inside `_save_indexed_files` raise (that exception is
caught and only logged by the source). -/
structure FaultEnv where
  add_fails : Bool
  save_fails : Bool
deriving Repr, DecidableEq

/-- State of a `VectorStore` object plus the persisted artefacts it owns:
`indexed_files` is the in-memory set, `disk` the content of
`indexed_files.json` (`none` when the file does not exist), `stored` the
chunks in the Chroma collection, and `ready` whether
`self.vectorstore`/`self.retriever` are set. -/
structure VSState where
  indexed_files : List String
  disk : Option (List String)
  stored : List Document
  ready : Bool
deriving Repr, DecidableEq

/-- `VectorStore.__init__` (lines 18-32): loads the indexed-file list from
disk; no collection or retriever yet. -/
def mkVectorStore (disk : Option (List String)) : VSState :=
  { indexed_files := disk.getD [], disk := disk, stored := [], ready := false }

/-- `VectorStore.is_file_indexed` (lines 60-62). -/
def is_file_indexed (s : VSState) (filename : String) : Bool :=
  memb s.indexed_files filename

/-- `VectorStore._save_indexed_files` (lines 45-54): writes the set to disk;
an I/O failure is caught and logged, never raised. -/
def save_indexed_files (env : FaultEnv) (s : VSState) : VSState :=
  if env.save_fails then s else { s with disk := some s.indexed_files }

/-- The filtering loop of `VectorStore.add_documents` (lines 152-167):
returns `(new_documents, new_files)`; a chunk of an already-indexed named
file is skipped, a chunk passing the length filter is kept and its
non-"unknown" file name recorded. -/
def scanDocs (idx : List String) : List Document → List Document × List String
  | [] => ([], [])
  | d :: ds =>
    let name := getPdfName d
    if name != "unknown" && memb idx name then scanDocs idx ds
    else if keepDoc d then
      let pr := scanDocs idx ds
      (d :: pr.1, if name != "unknown" then insertNew pr.2 name else pr.2)
    else scanDocs idx ds

/-- `new_indexed_files` of `VectorStore.create_vectorstore` (lines 90-107):
names (≠ "unknown") of the chunks that pass the length filter. -/
def newFilesOf : List Document → List String
  | [] => []
  | d :: ds =>
    let fs := newFilesOf ds
    if keepDoc d && getPdfName d != "unknown" then insertNew fs (getPdfName d) else fs

/-- `VectorStore.create_vectorstore` (lines 64-135): with no documents it
creates an empty collection; otherwise it embeds the filtered chunks
(`Chroma.from_texts`, which may raise), then records the new file names and
saves the set.  The final `persist` is wrapped in its own try/except. -/
def create_vectorstore (env : FaultEnv) (s : VSState) (documents : List Document) :
    VSState × Except Unit Unit :=
  if documents.isEmpty then ({ s with ready := true }, Except.ok ())
  else
    let kept := documents.filter keepDoc
    if env.add_fails then (s, Except.error ())
    else
      let s1 := { s with stored := s.stored ++ kept, ready := true,
                         indexed_files := unionFiles s.indexed_files (newFilesOf documents) }
      (save_indexed_files env s1, Except.ok ())

/-- `VectorStore.add_documents` (lines 137-213).  Returns the updated object
state together with the returned count (`Except.error` models an uncaught
exception from the embedding/Chroma append).  The in-memory set is updated
and saved only after `add_texts` succeeded. -/
def add_documents (env : FaultEnv) (s : VSState) (documents : List Document) :
    VSState × Except Unit Nat :=
  if documents.isEmpty then (s, Except.ok 0)
  else
    let pr := scanDocs s.indexed_files documents
    if pr.1.isEmpty then (s, Except.ok 0)
    else if !s.ready then
      match create_vectorstore env s pr.1 with
      | (s1, Except.ok _) => (s1, Except.ok pr.1.length)
      | (s1, Except.error e) => (s1, Except.error e)
    else if env.add_fails then (s, Except.error ())
    else
      let s1 := { s with stored := s.stored ++ pr.1,
                         indexed_files := unionFiles s.indexed_files pr.2 }
      (save_indexed_files env s1, Except.ok pr.1.length)

/-- `VectorStore.load_vectorstore` (lines 215-231): opens the persisted
collection and retriever. -/
def load_vectorstore (s : VSState) : VSState :=
  { s with ready := true }

/-- Error raised by `VectorStore.get_retriever` (line 236):
`RuntimeError("Vectorstore not initialized. Call create_vectorstore or
load_vectorstore first.")` — the spec's `NotInitialized`. -/
inductive VSErr where
  | notInit : VSErr
deriving Repr, DecidableEq

/-- `VectorStore.retrieve_with_metadata` (lines 239-262): `k` defaults to
`Config.RETRIEVAL_K`; `get_retriever` raises when no retriever exists; the
similarity search itself is external (`search`). -/
def retrieve_with_metadata (search : String → List Document) (s : VSState)
    (query : String) (k : Option Nat) : Except VSErr (List Document) :=
  if !s.ready then Except.error VSErr.notInit
  else Except.ok ((search query).take (k.getD Config.RETRIEVAL_K))

/-- `VectorStore.delete_collection` (lines 287-304): drops the collection and
retriever, clears the in-memory set and unlinks `indexed_files.json`. -/
def delete_collection (s : VSState) : VSState :=
  { s with ready := false, indexed_files := [], disk := none }

/-- The record returned by `VectorStore.get_collection_stats` (lines 306-331),
restricted to the fields the spec names. -/
structure VSStats where
  status : String
  indexed_files_count : Nat
  document_count : Option Nat
deriving Repr, DecidableEq

/-- `VectorStore.get_collection_stats` (lines 306-331). -/
def get_collection_stats (s : VSState) : VSStats :=
  if !s.ready then
    { status := "not_initialized", indexed_files_count := s.indexed_files.length,
      document_count := none }
  else
    { status := "ready", indexed_files_count := s.indexed_files.length,
      document_count := some s.stored.length }

/-- One stored message of a conversation (`conversation_manager.py`
lines 139-144). -/
structure ConvMessage where
  role : String
  content : String
  timestamp : String
  metadata : List (String × JVal)
deriving Repr

/-- The body of one conversation file (`<id>.json`, lines 71-81); the nested
`metadata` dict is flattened to its two counters. -/
structure ConvData where
  id : String
  title : String
  created_at : String
  updated_at : String
  messages : List ConvMessage
  query_count : Nat
  total_tokens : Nat
deriving Repr

/-- One entry of the summary index `index.json` (lines 84-89). -/
structure IndexEntry where
  title : String
  created_at : String
  updated_at : String
  query_count : Nat
deriving Repr

/-- State of a `ConversationManager` plus its two persisted tiers:
the summary index and the per-session body files. -/
structure CMState where
  conversations : List (String × IndexEntry)
  files : List (String × ConvData)
deriving Repr

/-- Replace the binding of a key in an association list. -/
def updateAssoc {α : Type} (l : List (String × α)) (k : String) (v : α) :
    List (String × α) :=
  l.map (fun p => if p.1 == k then (k, v) else p)

/-- `ConversationManager.load_conversation` (lines 106-117): reads the body
file, `none` when it does not exist. -/
def load_conversation (cm : CMState) (conversation_id : String) : Option ConvData :=
  (cm.files.find? (fun p => p.1 == conversation_id)).map (fun p => p.2)

/-- `ConversationManager.add_message` (lines 119-158).  `now` stands for
`datetime.now().isoformat()`.  An unknown id makes `load_conversation` return
`None` and the method returns with no effect; a body file whose id is missing
from the index would make the index update raise `KeyError` (`Except.error`). -/
def add_message (cm : CMState) (conversation_id role content : String)
    (metadata : List (String × JVal)) (now : String) : Except Unit CMState :=
  match load_conversation cm conversation_id with
  | none => Except.ok cm
  | some conv =>
    let qc := if role = "user" then conv.query_count + 1 else conv.query_count
    let conv1 := { conv with
      messages := conv.messages ++ [{ role := role, content := content,
                                      timestamp := now, metadata := metadata }],
      updated_at := now, query_count := qc }
    match (cm.conversations.find? (fun p => p.1 == conversation_id)).map (fun p => p.2) with
    | none => Except.error ()
    | some entry =>
      let entry1 := { entry with updated_at := now, query_count := qc }
      Except.ok { conversations := updateAssoc cm.conversations conversation_id entry1,
                  files := updateAssoc cm.files conversation_id conv1 }

/-- The values of the result dictionary built by `GraphBuilder.run`
(`graph_builder.py` lines 97-106). -/
inductive RVal where
  | vstr : String → RVal
  | vnum : ℚ → RVal
  | vstrList : List String → RVal
  | vjList : List JVal → RVal
  | vdocs : List Document → RVal
deriving Repr

/-- `GraphBuilder.run` (lines 47-112): runs the two-node graph
(`retriever` then `responder`) on a fresh state and packs the final state
into the result dictionary, in the source's key order. -/
def graphRun (search : String → List Document) (llmResult : Except Unit String)
    (question : String) (chat_history : List (String × String)) :
    List (String × RVal) :=
  let final := generate_answer llmResult (retrieve_docs search (initRAGState question chat_history))
  [("answer", RVal.vstr final.answer),
   ("reasoning", RVal.vstr final.reasoning),
   ("hypothesis", RVal.vstr final.hypothesis),
   ("suggestions", RVal.vstrList final.suggestions),
   ("sources", RVal.vjList final.sources),
   ("retrieved_docs", RVal.vdocs final.retrieved_docs),
   ("confidence_score", RVal.vnum final.confidence_score),
   ("question", RVal.vstr question)]

/-- Projection of a numeric entry of the result dictionary. -/
def numAt (res : List (String × RVal)) (k : String) : Option ℚ :=
  match (res.find? (fun p => p.1 == k)).map (fun p => p.2) with
  | some (RVal.vnum q) => some q
  | _ => none

instance {ε α : Type} [DecidableEq ε] [DecidableEq α] : DecidableEq (Except ε α) := fun x y =>
  match x, y with
  | Except.ok a, Except.ok b =>
    if h : a = b then isTrue (h ▸ rfl) else isFalse (fun hc => h (Except.ok.inj hc))
  | Except.error a, Except.error b =>
    if h : a = b then isTrue (h ▸ rfl) else isFalse (fun hc => h (Except.error.inj hc))
  | Except.ok _, Except.error _ => isFalse (fun hc => Except.noConfusion hc)
  | Except.error _, Except.ok _ => isFalse (fun hc => Except.noConfusion hc)

/-- C2: if the completion (Gateway) call raises during synthesis,
`generate_answer` does not propagate the exception: it returns a valid
answered state whose `confidence_score` is exactly 0.0, whose `suggestions`
list is non-empty generic retry hints, and whose `answer` is a fixed
error-flavored text (with the retrieved chunks' metadata kept as sources). -/
theorem generate_answer_gateway_fallback (e : Unit) (st : RAGState) :
    generate_answer (Except.error e) st = fallbackState st (sourcesList st.retrieved_docs) ∧
    (generate_answer (Except.error e) st).confidence_score = 0 ∧
    (generate_answer (Except.error e) st).suggestions =
      ["Try rephrasing the question", "Check if documents are relevant"] ∧
    (generate_answer (Except.error e) st).suggestions ≠ [] ∧
    (generate_answer (Except.error e) st).answer =
      "I encountered an error generating a comprehensive answer. Please try rephrasing your question." := by
  refine ⟨rfl, rfl, rfl, ?_, rfl⟩
  simp [generate_answer, fallbackState]

/-- C3: a query issued before any vector collection has been created or
loaded, and a query issued after `delete_collection` and before a new ingest,
fails fast with the not-initialized error rather than returning a result. -/
theorem query_not_initialized (search : String → List Document)
    (disk : Option (List String)) (s : VSState) (q : String) (k : Option Nat) :
    retrieve_with_metadata search (mkVectorStore disk) q k = Except.error VSErr.notInit ∧
    retrieve_with_metadata search (delete_collection s) q k = Except.error VSErr.notInit := by
  constructor <;> simp [retrieve_with_metadata, mkVectorStore, delete_collection]

/-- C7: `add_message` on an unknown `session_id` returns without raising,
appends no message, and leaves the whole Conversation Store state — in
particular its summary index — unchanged. -/
theorem add_message_unknown_id (cm : CMState) (conversation_id role content : String)
    (metadata : List (String × JVal)) (now : String)
    (h : load_conversation cm conversation_id = none) :
    add_message cm conversation_id role content metadata now = Except.ok cm := by
  simp [add_message, h]

/-- Witness for C7 at a concrete store with no session files. -/
theorem add_message_unknown_id_witness :
    add_message ⟨[], []⟩ "missing-session" "user" "hello" [] "2026-01-01T00:00:00" =
      Except.ok (⟨[], []⟩ : CMState) :=
  add_message_unknown_id ⟨[], []⟩ "missing-session" "user" "hello" [] "2026-01-01T00:00:00" rfl

/-- C6: the formatted history presented to synthesis contains at most the
last `MAX_HISTORY_TURNS` (default 8) turns — given 20 prior turns, exactly the
last 8 — and each included turn's content is truncated to at most 200
characters. -/
theorem format_history_bounded (history : List (String × String)) :
    (recentLines history).length ≤ Config.MAX_HISTORY_TURNS ∧
    Config.MAX_HISTORY_TURNS = 8 ∧
    (history.length = 20 → recentTurns history = history.drop 12) ∧
    (∀ r m, (r, m) ∈ recentTurns history →
      formatTurn (r, m) = r.toUpper ++ ": " ++ pyTake 200 m ∧
      (pyTake 200 m).length ≤ 200) ∧
    (¬ history.isEmpty → format_history history = "\n".intercalate (recentLines history)) := by
  refine ⟨?_, rfl, ?_, ?_, ?_⟩
  · simp only [recentLines, List.length_map, recentTurns, List.length_drop]
    omega
  · intro h20
    simp [recentTurns, h20, Config.MAX_HISTORY_TURNS]
  · intro r m _
    refine ⟨rfl, ?_⟩
    show (m.data.take 200).length ≤ 200
    simp [List.length_take]
  · intro hne
    simp [format_history, hne]

/-- Witness for C6: twenty prior turns leave exactly the last eight, and a
nonempty history is rendered as the newline-joined window. -/
theorem format_history_bounded_witness :
    recentTurns (List.replicate 20 ("user", "hello")) =
      (List.replicate 20 ("user", "hello")).drop 12 ∧
    format_history [("user", "hi")] = "\n".intercalate (recentLines [("user", "hi")]) ∧
    (pyTake 200 "hi").length ≤ 200 :=
  ⟨(format_history_bounded (List.replicate 20 ("user", "hello"))).2.2.1 (by simp),
   (format_history_bounded [("user", "hi")]).2.2.2.2 (by simp),
   ((format_history_bounded [("user", "hi")]).2.2.2.1 "user" "hi" (by decide)).2⟩

lemma memb_insertNew_self (l : List String) (a : String) :
    memb (insertNew l a) a = true := by
  unfold insertNew
  by_cases h : memb l a = true
  · simp [h]
  · simp [Bool.not_eq_true] at h
    simp [h, memb]

lemma memb_insertNew_mono (l : List String) (a b : String) (h : memb l b = true) :
    memb (insertNew l a) b = true := by
  unfold insertNew
  by_cases ha : memb l a = true
  · simp [ha, h]
  · simp [Bool.not_eq_true] at ha
    simp [ha, memb, h]

lemma memb_insertNew_inv (l : List String) (a b : String)
    (h : memb (insertNew l a) b = true) : b = a ∨ memb l b = true := by
  unfold insertNew at h
  by_cases ha : memb l a = true
  · simp [ha] at h
    exact Or.inr h
  · simp [Bool.not_eq_true] at ha
    simp [ha, memb] at h
    rcases h with h | h
    · exact Or.inl h
    · exact Or.inr h

lemma memb_unionFiles_left (fs : List String) :
    ∀ idx a, memb idx a = true → memb (unionFiles idx fs) a = true := by
  induction fs with
  | nil => intro idx a h; simpa [unionFiles] using h
  | cons f fs ih =>
    intro idx a h
    simp only [unionFiles]
    exact ih _ _ (memb_insertNew_mono _ _ _ h)

lemma memb_unionFiles_right (fs : List String) :
    ∀ idx a, memb fs a = true → memb (unionFiles idx fs) a = true := by
  induction fs with
  | nil => intro idx a h; simp [memb] at h
  | cons f fs ih =>
    intro idx a h
    simp only [memb, Bool.or_eq_true] at h
    simp only [unionFiles]
    rcases h with h | h
    · have : a = f := by simpa using h
      subst this
      exact memb_unionFiles_left fs _ _ (memb_insertNew_self _ _)
    · exact ih _ _ h

lemma memb_unionFiles_inv (fs : List String) :
    ∀ idx a, memb (unionFiles idx fs) a = true →
      memb idx a = true ∨ memb fs a = true := by
  induction fs with
  | nil => intro idx a h; exact Or.inl (by simpa [unionFiles] using h)
  | cons f fs ih =>
    intro idx a h
    simp only [unionFiles] at h
    rcases ih _ _ h with h1 | h1
    · rcases memb_insertNew_inv _ _ _ h1 with h2 | h2
      · subst h2; exact Or.inr (by simp [memb])
      · exact Or.inl h2
    · exact Or.inr (by simp [memb, h1])

lemma scanDocs_kept_keep (idx : List String) :
    ∀ docs d, d ∈ (scanDocs idx docs).1 → keepDoc d = true := by
  intro docs
  induction docs with
  | nil => intro d h; simp [scanDocs] at h
  | cons d0 ds ih =>
    intro d h
    simp only [scanDocs] at h
    by_cases h1 : (getPdfName d0 != "unknown" && memb idx (getPdfName d0)) = true
    · rw [if_pos h1] at h
      exact ih d h
    · rw [if_neg h1] at h
      by_cases h2 : keepDoc d0 = true
      · rw [if_pos h2] at h
        simp only [List.mem_cons] at h
        rcases h with h | h
        · subst h; exact h2
        · exact ih d h
      · rw [if_neg h2] at h
        exact ih d h

lemma scanDocs_kept_sub (idx : List String) :
    ∀ docs d, d ∈ (scanDocs idx docs).1 → d ∈ docs := by
  intro docs
  induction docs with
  | nil => intro d h; simp [scanDocs] at h
  | cons d0 ds ih =>
    intro d h
    simp only [scanDocs] at h
    by_cases h1 : (getPdfName d0 != "unknown" && memb idx (getPdfName d0)) = true
    · rw [if_pos h1] at h
      exact List.mem_cons_of_mem _ (ih d h)
    · rw [if_neg h1] at h
      by_cases h2 : keepDoc d0 = true
      · rw [if_pos h2] at h
        simp only [List.mem_cons] at h
        rcases h with h | h
        · subst h; exact List.mem_cons_self _ _
        · exact List.mem_cons_of_mem _ (ih d h)
      · rw [if_neg h2] at h
        exact List.mem_cons_of_mem _ (ih d h)

lemma scanDocs_kept_name (idx : List String) :
    ∀ docs d, d ∈ (scanDocs idx docs).1 → getPdfName d ≠ "unknown" →
      memb (scanDocs idx docs).2 (getPdfName d) = true := by
  intro docs
  induction docs with
  | nil => intro d h; simp [scanDocs] at h
  | cons d0 ds ih =>
    intro d h hname
    simp only [scanDocs] at h ⊢
    by_cases h1 : (getPdfName d0 != "unknown" && memb idx (getPdfName d0)) = true
    · rw [if_pos h1] at h ⊢
      exact ih d h hname
    · rw [if_neg h1] at h ⊢
      by_cases h2 : keepDoc d0 = true
      · rw [if_pos h2] at h ⊢
        simp only [List.mem_cons] at h
        rcases h with h | h
        · subst h
          have : (getPdfName d != "unknown") = true := by simpa using hname
          simp only [this, if_true]
          exact memb_insertNew_self _ _
        · by_cases h3 : (getPdfName d0 != "unknown") = true
          · simp only [h3, if_true]
            exact memb_insertNew_mono _ _ _ (ih d h hname)
          · simp only [h3]
            simp only [Bool.if_false_left, Bool.not_eq_true] at *
            exact ih d h hname
      · rw [if_neg h2] at h ⊢
        exact ih d h hname

lemma scanDocs_mem_kept (idx : List String) :
    ∀ docs d, d ∈ docs → keepDoc d = true →
      memb idx (getPdfName d) = false → d ∈ (scanDocs idx docs).1 := by
  intro docs
  induction docs with
  | nil => intro d h; simp at h
  | cons d0 ds ih =>
    intro d h hk hm
    simp only [List.mem_cons] at h
    simp only [scanDocs]
    rcases h with h | h
    · subst h
      have h1 : (getPdfName d != "unknown" && memb idx (getPdfName d)) = false := by
        simp [hm]
      rw [h1]
      simp only [Bool.false_eq_true, if_false, if_pos hk]
      exact List.mem_cons_self _ _
    · by_cases h1 : (getPdfName d0 != "unknown" && memb idx (getPdfName d0)) = true
      · rw [if_pos h1]
        exact ih d h hk hm
      · rw [if_neg h1]
        by_cases h2 : keepDoc d0 = true
        · rw [if_pos h2]
          exact List.mem_cons_of_mem _ (ih d h hk hm)
        · rw [if_neg h2]
          exact ih d h hk hm

lemma scanDocs_skipAll (idx : List String) :
    ∀ docs, (∀ d ∈ docs, getPdfName d ≠ "unknown" ∧
        (keepDoc d = true → memb idx (getPdfName d) = true)) →
      scanDocs idx docs = ([], []) := by
  intro docs
  induction docs with
  | nil => intro _; rfl
  | cons d0 ds ih =>
    intro h
    obtain ⟨hname, hmem⟩ := h d0 (List.mem_cons_self _ _)
    have hrest := fun d hd => h d (List.mem_cons_of_mem _ hd)
    simp only [scanDocs]
    by_cases hm : memb idx (getPdfName d0) = true
    · have h1 : (getPdfName d0 != "unknown" && memb idx (getPdfName d0)) = true := by
        simp [hm, hname]
      rw [if_pos h1]
      exact ih hrest
    · simp only [Bool.not_eq_true] at hm
      have h1 : (getPdfName d0 != "unknown" && memb idx (getPdfName d0)) ≠ true := by
        simp [hm]
      rw [if_neg h1]
      have h2 : keepDoc d0 ≠ true := by
        intro hk
        rw [hmem hk] at hm
        simp at hm
      rw [if_neg h2]
      exact ih hrest

lemma newFilesOf_mem :
    ∀ (ds : List Document) (d : Document), d ∈ ds → keepDoc d = true →
      getPdfName d ≠ "unknown" → memb (newFilesOf ds) (getPdfName d) = true := by
  intro ds
  induction ds with
  | nil => intro d h; simp at h
  | cons d0 ds ih =>
    intro d h hk hname
    simp only [List.mem_cons] at h
    simp only [newFilesOf]
    rcases h with h | h
    · subst h
      have h1 : (keepDoc d && getPdfName d != "unknown") = true := by
        simp [hk, hname]
      rw [if_pos h1]
      exact memb_insertNew_self _ _
    · by_cases h1 : (keepDoc d0 && getPdfName d0 != "unknown") = true
      · rw [if_pos h1]
        exact memb_insertNew_mono _ _ _ (ih d h hk hname)
      · rw [if_neg h1]
        exact ih d h hk hname

lemma newFilesOf_inv :
    ∀ (ds : List Document) (a : String), memb (newFilesOf ds) a = true →
      ∃ d ∈ ds, getPdfName d = a ∧ keepDoc d = true := by
  intro ds
  induction ds with
  | nil => intro a h; simp [newFilesOf, memb] at h
  | cons d0 ds ih =>
    intro a h
    simp only [newFilesOf] at h
    by_cases h1 : (keepDoc d0 && getPdfName d0 != "unknown") = true
    · rw [if_pos h1] at h
      rcases memb_insertNew_inv _ _ _ h with h2 | h2
      · subst h2
        exact ⟨d0, List.mem_cons_self _ _, rfl, (by simp at h1; exact h1.1)⟩
      · obtain ⟨d, hd, hn, hk⟩ := ih a h2
        exact ⟨d, List.mem_cons_of_mem _ hd, hn, hk⟩
    · rw [if_neg h1] at h
      obtain ⟨d, hd, hn, hk⟩ := ih a h
      exact ⟨d, List.mem_cons_of_mem _ hd, hn, hk⟩

lemma scanDocs_files_inv (idx : List String) :
    ∀ docs a, memb (scanDocs idx docs).2 a = true →
      ∃ d ∈ (scanDocs idx docs).1, getPdfName d = a := by
  intro docs
  induction docs with
  | nil => intro a h; simp [scanDocs, memb] at h
  | cons d0 ds ih =>
    intro a h
    simp only [scanDocs] at h ⊢
    by_cases h1 : (getPdfName d0 != "unknown" && memb idx (getPdfName d0)) = true
    · rw [if_pos h1] at h ⊢
      exact ih a h
    · rw [if_neg h1] at h ⊢
      by_cases h2 : keepDoc d0 = true
      · rw [if_pos h2] at h ⊢
        by_cases h3 : (getPdfName d0 != "unknown") = true
        · simp only [h3, if_true] at h
          rcases memb_insertNew_inv _ _ _ h with h4 | h4
          · exact ⟨d0, List.mem_cons_self _ _, h4.symm⟩
          · obtain ⟨d, hd, hn⟩ := ih a h4
            exact ⟨d, List.mem_cons_of_mem _ hd, hn⟩
        · rw [if_neg h3] at h
          obtain ⟨d, hd, hn⟩ := ih a h
          exact ⟨d, List.mem_cons_of_mem _ hd, hn⟩
      · rw [if_neg h2] at h ⊢
        exact ih a h

lemma scanDocs_unknown (idx : List String) :
    ∀ docs, (∀ d ∈ docs, getPdfName d = "unknown" ∧ keepDoc d = true) →
      scanDocs idx docs = (docs, []) := by
  intro docs
  induction docs with
  | nil => intro _; rfl
  | cons d0 ds ih =>
    intro h
    obtain ⟨hname, hk⟩ := h d0 (List.mem_cons_self _ _)
    have hrest := ih (fun d hd => h d (List.mem_cons_of_mem _ hd))
    simp only [scanDocs, hname]
    have h1 : (("unknown" : String) != "unknown") = false := by simp
    rw [h1]
    simp only [Bool.false_and, Bool.false_eq_true, if_false, if_pos hk, hrest]

lemma save_indexed_files_fields (env : FaultEnv) (t : VSState) :
    (save_indexed_files env t).indexed_files = t.indexed_files ∧
    (save_indexed_files env t).stored = t.stored ∧
    (save_indexed_files env t).ready = t.ready := by
  unfold save_indexed_files
  by_cases h : env.save_fails = true <;> simp [h]

lemma add_documents_ok_inv (env : FaultEnv) (s : VSState) (documents : List Document)
    (s1 : VSState) (n : Nat)
    (h : add_documents env s documents = (s1, Except.ok n)) :
    (s1 = s ∧ n = 0 ∧ (scanDocs s.indexed_files documents).1 = []) ∨
    ((scanDocs s.indexed_files documents).1 ≠ [] ∧
      n = (scanDocs s.indexed_files documents).1.length ∧
      s1.stored = s.stored ++ (scanDocs s.indexed_files documents).1 ∧
      s1.ready = true ∧
      (s1.indexed_files =
          unionFiles s.indexed_files (scanDocs s.indexed_files documents).2 ∨
       s1.indexed_files =
          unionFiles s.indexed_files (newFilesOf (scanDocs s.indexed_files documents).1))) := by
  by_cases hd : documents.isEmpty = true
  · left
    have hdocs : documents = [] := by simpa using hd
    subst hdocs
    simp [add_documents] at h
    exact ⟨h.1.symm, h.2.symm, rfl⟩
  · by_cases hp : (scanDocs s.indexed_files documents).1.isEmpty = true
    · left
      have h' : add_documents env s documents = (s, Except.ok 0) := by
        simp [add_documents, hd, hp]
      rw [h'] at h
      have h1 : s = s1 ∧ (Except.ok 0 : Except Unit Nat) = Except.ok n := by
        constructor
        · exact congrArg Prod.fst h
        · exact congrArg Prod.snd h
      refine ⟨h1.1.symm, (Except.ok.inj h1.2).symm, by simpa using hp⟩
    · right
      have hpne : (scanDocs s.indexed_files documents).1 ≠ [] := by
        simpa [List.isEmpty_iff] using hp
      refine ⟨hpne, ?_⟩
      by_cases hr : s.ready = true
      · by_cases hf : env.add_fails = true
        · have h' : add_documents env s documents = (s, Except.error ()) := by
            simp [add_documents, hd, hp, hr, hf]
          rw [h'] at h
          have := congrArg Prod.snd h
          simp at this
        · have h' : add_documents env s documents =
              (save_indexed_files env
                 { s with stored := s.stored ++ (scanDocs s.indexed_files documents).1,
                          indexed_files :=
                            unionFiles s.indexed_files (scanDocs s.indexed_files documents).2 },
               Except.ok (scanDocs s.indexed_files documents).1.length) := by
            simp [add_documents, hd, hp, hr, hf]
          rw [h'] at h
          have hs1 := congrArg Prod.fst h
          have hn := congrArg Prod.snd h
          simp only at hs1 hn
          obtain ⟨hif, hsf, hrf⟩ := save_indexed_files_fields env
            { s with stored := s.stored ++ (scanDocs s.indexed_files documents).1,
                     indexed_files :=
                       unionFiles s.indexed_files (scanDocs s.indexed_files documents).2 }
          rw [hs1] at hif hsf hrf
          refine ⟨(Except.ok.inj hn).symm, by simpa using hsf, by simpa [hr] using hrf, ?_⟩
          left
          simpa using hif
      · by_cases hf : env.add_fails = true
        · have h' : add_documents env s documents = (s, Except.error ()) := by
            simp [add_documents, hd, hp, hr, hf, create_vectorstore,
              List.isEmpty_iff, hpne]
          rw [h'] at h
          have := congrArg Prod.snd h
          simp at this
        · have hfilter : (scanDocs s.indexed_files documents).1.filter keepDoc =
              (scanDocs s.indexed_files documents).1 :=
            List.filter_eq_self.mpr (fun d hd => scanDocs_kept_keep _ _ d hd)
          have h' : add_documents env s documents =
              (save_indexed_files env
                 { s with stored := s.stored ++ (scanDocs s.indexed_files documents).1,
                          ready := true,
                          indexed_files :=
                            unionFiles s.indexed_files
                              (newFilesOf (scanDocs s.indexed_files documents).1) },
               Except.ok (scanDocs s.indexed_files documents).1.length) := by
            simp [add_documents, hd, hp, hr, hf, create_vectorstore,
              List.isEmpty_iff, hpne, hfilter]
          rw [h'] at h
          have hs1 := congrArg Prod.fst h
          have hn := congrArg Prod.snd h
          simp only at hs1 hn
          obtain ⟨hif, hsf, hrf⟩ := save_indexed_files_fields env
            { s with stored := s.stored ++ (scanDocs s.indexed_files documents).1,
                     ready := true,
                     indexed_files :=
                       unionFiles s.indexed_files
                         (newFilesOf (scanDocs s.indexed_files documents).1) }
          rw [hs1] at hif hsf hrf
          refine ⟨(Except.ok.inj hn).symm, by simpa using hsf, by simpa using hrf, ?_⟩
          right
          simpa using hif

lemma add_documents_skip (env : FaultEnv) (s : VSState) (documents : List Document)
    (h : ∀ d ∈ documents, getPdfName d ≠ "unknown" ∧
        (keepDoc d = true → memb s.indexed_files (getPdfName d) = true)) :
    add_documents env s documents = (s, Except.ok 0) := by
  by_cases hd : documents.isEmpty = true
  · simp [add_documents, hd]
  · have hscan : scanDocs s.indexed_files documents = ([], []) :=
      scanDocs_skipAll _ _ h
    simp [add_documents, hd, hscan]

/-- C1: ingest is idempotent at file granularity.  If a first `add_documents`
call over chunks with real (non-"unknown") `pdf_name`s returns successfully,
then a second call with the same chunks skips every chunk, adds nothing,
returns 0, leaves the whole store state unchanged, and leaves
`stats().indexed_files_count` unchanged — a skip, not an error. -/
theorem add_documents_idempotent (env1 env2 : FaultEnv) (s s1 : VSState)
    (documents : List Document) (n : Nat)
    (hnames : ∀ d ∈ documents, getPdfName d ≠ "unknown")
    (h1 : add_documents env1 s documents = (s1, Except.ok n)) :
    add_documents env2 s1 documents = (s1, Except.ok 0) ∧
    (get_collection_stats (add_documents env2 s1 documents).1).indexed_files_count =
      (get_collection_stats s1).indexed_files_count := by
  have hmarks : ∀ d ∈ documents, keepDoc d = true →
      memb s1.indexed_files (getPdfName d) = true := by
    intro d hd hk
    rcases add_documents_ok_inv env1 s documents s1 n h1 with
      ⟨hs, _, hempty⟩ | ⟨_, _, _, _, hidx⟩
    · rw [hs]
      by_cases hm : memb s.indexed_files (getPdfName d) = true
      · exact hm
      · exfalso
        have : d ∈ (scanDocs s.indexed_files documents).1 :=
          scanDocs_mem_kept _ _ d hd hk (by simpa using hm)
        rw [hempty] at this
        simp at this
    · by_cases hm : memb s.indexed_files (getPdfName d) = true
      · rcases hidx with hidx | hidx <;> rw [hidx] <;>
          exact memb_unionFiles_left _ _ _ hm
      · have hkept : d ∈ (scanDocs s.indexed_files documents).1 :=
          scanDocs_mem_kept _ _ d hd hk (by simpa using hm)
        rcases hidx with hidx | hidx <;> rw [hidx]
        · exact memb_unionFiles_right _ _ _
            (scanDocs_kept_name _ _ d hkept (hnames d hd))
        · exact memb_unionFiles_right _ _ _
            (newFilesOf_mem _ d hkept (scanDocs_kept_keep _ _ d hkept) (hnames d hd))
  have hskip : add_documents env2 s1 documents = (s1, Except.ok 0) :=
    add_documents_skip env2 s1 documents
      (fun d hd => ⟨hnames d hd, fun hk => hmarks d hd hk⟩)
  exact ⟨hskip, by rw [hskip]⟩

/-- Witness for C1: a fresh store, one real chunk from `a.pdf`; the first
ingest adds it, the second returns 0 with the state untouched. -/
theorem add_documents_idempotent_witness :
    add_documents ⟨false, false⟩
        (⟨["a.pdf"], some ["a.pdf"],
          [⟨"Bacteria X degrades compound Y in soil samples",
            ⟨some "a.pdf", some 1, some "page_text", some "a.pdf"⟩⟩], true⟩ : VSState)
        [⟨"Bacteria X degrades compound Y in soil samples",
          ⟨some "a.pdf", some 1, some "page_text", some "a.pdf"⟩⟩] =
      (⟨["a.pdf"], some ["a.pdf"],
        [⟨"Bacteria X degrades compound Y in soil samples",
          ⟨some "a.pdf", some 1, some "page_text", some "a.pdf"⟩⟩], true⟩, Except.ok 0) :=
  (add_documents_idempotent ⟨false, false⟩ ⟨false, false⟩ (mkVectorStore none) _
    [⟨"Bacteria X degrades compound Y in soil samples",
      ⟨some "a.pdf", some 1, some "page_text", some "a.pdf"⟩⟩] 1
    (by decide) (by decide)).1

lemma newFilesOf_unknown :
    ∀ ds : List Document, (∀ d ∈ ds, getPdfName d = "unknown") → newFilesOf ds = [] := by
  intro ds
  induction ds with
  | nil => intro _; rfl
  | cons d0 ds ih =>
    intro h
    have h0 := h d0 (List.mem_cons_self _ _)
    simp only [newFilesOf, h0]
    have h1 : (keepDoc d0 && ("unknown" : String) != "unknown") = false := by simp
    rw [h1]
    simp only [Bool.false_eq_true, if_false]
    exact ih (fun d hd => h d (List.mem_cons_of_mem _ hd))

lemma unionFiles_nil (idx : List String) : unionFiles idx [] = idx := rfl

lemma add_documents_unknown_aux (env : FaultEnv) (s : VSState)
    (documents : List Document) (hne : documents ≠ [])
    (hunk : ∀ d ∈ documents, getPdfName d = "unknown" ∧ keepDoc d = true)
    (hnf : env.add_fails = false) :
    (add_documents env s documents).2 = Except.ok documents.length ∧
    (add_documents env s documents).1.indexed_files = s.indexed_files ∧
    (add_documents env s documents).1.stored = s.stored ++ documents ∧
    (add_documents env s documents).1.ready = true := by
  have hd : ¬ documents.isEmpty = true := by simpa [List.isEmpty_iff] using hne
  have hscan : scanDocs s.indexed_files documents = (documents, []) :=
    scanDocs_unknown _ _ hunk
  have hfilter : documents.filter keepDoc = documents :=
    List.filter_eq_self.mpr (fun d hd' => (hunk d hd').2)
  have hnew : newFilesOf documents = [] :=
    newFilesOf_unknown _ (fun d hd' => (hunk d hd').1)
  by_cases hr : s.ready = true
  · have h' : add_documents env s documents =
        (save_indexed_files env { s with stored := s.stored ++ documents },
         Except.ok documents.length) := by
      simp [add_documents, hd, hscan, List.isEmpty_iff, hne, hr, hnf, unionFiles_nil]
    rw [h']
    obtain ⟨hif, hsf, hrf⟩ := save_indexed_files_fields env
      { s with stored := s.stored ++ documents }
    exact ⟨rfl, by simpa using hif, by simpa using hsf, by simpa [hr] using hrf⟩
  · have h' : add_documents env s documents =
        (save_indexed_files env { s with stored := s.stored ++ documents, ready := true },
         Except.ok documents.length) := by
      simp [add_documents, hd, hscan, List.isEmpty_iff, hne, hr, hnf,
        create_vectorstore, hfilter, hnew, unionFiles_nil]
    rw [h']
    obtain ⟨hif, hsf, hrf⟩ := save_indexed_files_fields env
      { s with stored := s.stored ++ documents, ready := true }
    exact ⟨rfl, by simpa using hif, by simpa using hsf, by simpa using hrf⟩

/-- C10: a chunk whose `pdf_name` metadata is missing or equal to "unknown"
is never recorded in the indexed-file set (neither by `add_documents` nor by
`create_vectorstore`) and is never skipped by the file-level dedup check:
every ingest call of such chunks that pass the minimum-length filter
re-embeds and re-adds them, so repeated ingestion creates duplicates. -/
theorem unknown_chunks_reingested (env : FaultEnv) (s : VSState)
    (documents : List Document) (hne : documents ≠ [])
    (hunk : ∀ d ∈ documents, getPdfName d = "unknown" ∧ keepDoc d = true)
    (hnf : env.add_fails = false) :
    (add_documents env s documents).2 = Except.ok documents.length ∧
    (add_documents env s documents).1.indexed_files = s.indexed_files ∧
    (add_documents env s documents).1.stored = s.stored ++ documents ∧
    (documents.isEmpty = false →
      (create_vectorstore env s documents).1.indexed_files = s.indexed_files) ∧
    (add_documents env (add_documents env s documents).1 documents).2 =
      Except.ok documents.length ∧
    (add_documents env (add_documents env s documents).1 documents).1.stored =
      s.stored ++ documents ++ documents := by
  obtain ⟨h2, hidx, hstored, _⟩ := add_documents_unknown_aux env s documents hne hunk hnf
  obtain ⟨h2', hidx', hstored', _⟩ :=
    add_documents_unknown_aux env (add_documents env s documents).1 documents hne hunk hnf
  refine ⟨h2, hidx, hstored, ?_, h2', by rw [hstored', hstored]⟩
  intro hde
  have hfilter : documents.filter keepDoc = documents :=
    List.filter_eq_self.mpr (fun d hd' => (hunk d hd').2)
  have hnew : newFilesOf documents = [] :=
    newFilesOf_unknown _ (fun d hd' => (hunk d hd').1)
  have h' : create_vectorstore env s documents =
      (save_indexed_files env { s with stored := s.stored ++ documents, ready := true },
       Except.ok ()) := by
    simp [create_vectorstore, hde, hnf, hfilter, hnew, unionFiles_nil]
  rw [h']
  obtain ⟨hif, _, _⟩ := save_indexed_files_fields env
    { s with stored := s.stored ++ documents, ready := true }
  simpa using hif

/-- Witness for C10: one unnamed chunk ingested twice into a ready store is
stored twice, with the indexed-file set untouched. -/
theorem unknown_chunks_reingested_witness :
    (add_documents ⟨false, false⟩ (⟨[], none, [], true⟩ : VSState)
        [⟨"an unnamed chunk body that is long enough", ⟨none, none, none, none⟩⟩]).2 =
      Except.ok 1 ∧
    (add_documents ⟨false, false⟩
        (add_documents ⟨false, false⟩ (⟨[], none, [], true⟩ : VSState)
          [⟨"an unnamed chunk body that is long enough", ⟨none, none, none, none⟩⟩]).1
        [⟨"an unnamed chunk body that is long enough", ⟨none, none, none, none⟩⟩]).1.stored =
      [⟨"an unnamed chunk body that is long enough", ⟨none, none, none, none⟩⟩,
       ⟨"an unnamed chunk body that is long enough", ⟨none, none, none, none⟩⟩] := by
  obtain ⟨h1, _, _, _, _, h6⟩ := unknown_chunks_reingested ⟨false, false⟩
    (⟨[], none, [], true⟩ : VSState)
    [⟨"an unnamed chunk body that is long enough", ⟨none, none, none, none⟩⟩]
    (by decide) (by decide) rfl
  exact ⟨h1, by simpa using h6⟩

lemma add_documents_ok_of_no_addfail (env : FaultEnv) (s : VSState)
    (documents : List Document) (hnf : env.add_fails = false) :
    (add_documents env s documents).2 =
      Except.ok (scanDocs s.indexed_files documents).1.length := by
  by_cases hd : documents.isEmpty = true
  · have hdocs : documents = [] := by simpa using hd
    subst hdocs
    simp [add_documents, scanDocs]
  · by_cases hp : (scanDocs s.indexed_files documents).1.isEmpty = true
    · have hnil : (scanDocs s.indexed_files documents).1 = [] := by
        simpa [List.isEmpty_iff] using hp
      simp [add_documents, hd, hp, hnil]
    · have hpne : (scanDocs s.indexed_files documents).1 ≠ [] := by
        simpa [List.isEmpty_iff] using hp
      by_cases hr : s.ready = true
      · simp [add_documents, hd, hp, hr, hnf]
      · simp [add_documents, hd, hp, hr, hnf, create_vectorstore,
          List.isEmpty_iff, hpne]

/-- C8 counterexample: with a disk I/O failure while persisting the
indexed-file list (`save_fails`), `add_documents` still returns `ok 1` —
the `StorageError` is caught and logged inside `_save_indexed_files`, not
surfaced to the caller — and the on-disk set stays stale while the
in-memory set already contains the file. -/
theorem storage_error_swallowed_counterexample :
    (add_documents ⟨false, true⟩ (⟨[], some [], [], true⟩ : VSState)
        [⟨"Bacteria X degrades compound Y in soil samples",
          ⟨some "a.pdf", some 1, some "page_text", some "a.pdf"⟩⟩]).2 =
      Except.ok 1 ∧
    (add_documents ⟨false, true⟩ (⟨[], some [], [], true⟩ : VSState)
        [⟨"Bacteria X degrades compound Y in soil samples",
          ⟨some "a.pdf", some 1, some "page_text", some "a.pdf"⟩⟩]).1.indexed_files =
      ["a.pdf"] ∧
    (add_documents ⟨false, true⟩ (⟨[], some [], [], true⟩ : VSState)
        [⟨"Bacteria X degrades compound Y in soil samples",
          ⟨some "a.pdf", some 1, some "page_text", some "a.pdf"⟩⟩]).1.disk =
      some [] := by
  refine ⟨?_, ?_, ?_⟩ <;> decide

/-- C8 (amended): a failure of the vector append itself
(`Chroma.from_texts` / `add_texts`) propagates to the caller of ingest and
leaves the store — in particular the `IndexedFileSet` — unchanged, so the
file stays unmarked and a retry is safe; a failure while writing the
indexed-file list is caught and logged, never raised, so ingest returns the
added count whenever the append succeeded; and a file name is newly marked
only when the chunks that carry it were stored in the same call — never
before its vectors are stored. -/
theorem ingest_commit_ordering (env : FaultEnv) (s : VSState)
    (documents : List Document) :
    (env.add_fails = true → (scanDocs s.indexed_files documents).1 ≠ [] →
      add_documents env s documents = (s, Except.error ())) ∧
    (env.add_fails = false →
      (add_documents env s documents).2 =
        Except.ok (scanDocs s.indexed_files documents).1.length) ∧
    (env.add_fails = false → ∀ a,
      memb (add_documents env s documents).1.indexed_files a = true →
      memb s.indexed_files a = true ∨
      ∃ d, d ∈ (add_documents env s documents).1.stored ∧ d ∈ documents ∧
        getPdfName d = a) := by
  refine ⟨?_, ?_, ?_⟩
  · intro hf hpne
    have hd : ¬ documents.isEmpty = true := by
      intro hde
      have : documents = [] := by simpa using hde
      subst this
      exact hpne (by rfl)
    have hp : ¬ (scanDocs s.indexed_files documents).1.isEmpty = true := by
      simpa [List.isEmpty_iff] using hpne
    by_cases hr : s.ready = true
    · simp [add_documents, hd, hp, hr, hf]
    · simp [add_documents, hd, hp, hr, hf, create_vectorstore,
        List.isEmpty_iff, hpne]
  · intro hnf
    exact add_documents_ok_of_no_addfail env s documents hnf
  · intro hnf a hmem
    have hok := add_documents_ok_of_no_addfail env s documents hnf
    have heq : add_documents env s documents =
        ((add_documents env s documents).1,
         Except.ok (scanDocs s.indexed_files documents).1.length) := by
      rw [← hok]
    rcases add_documents_ok_inv env s documents (add_documents env s documents).1
        (scanDocs s.indexed_files documents).1.length heq with
      ⟨hs, _, _⟩ | ⟨_, _, hstored, _, hidx⟩
    · rw [hs] at hmem
      exact Or.inl hmem
    · rcases hidx with hidx | hidx <;> rw [hidx] at hmem <;>
        rcases memb_unionFiles_inv _ _ _ hmem with h1 | h1
      · exact Or.inl h1
      · obtain ⟨d, hd1, hd2⟩ := scanDocs_files_inv _ _ _ h1
        exact Or.inr ⟨d, by rw [hstored]; exact List.mem_append_right _ hd1,
          scanDocs_kept_sub _ _ _ hd1, hd2⟩
      · exact Or.inl h1
      · obtain ⟨d, hd1, hd2, _⟩ := newFilesOf_inv _ _ h1
        exact Or.inr ⟨d, by rw [hstored]; exact List.mem_append_right _ hd1,
          scanDocs_kept_sub _ _ _ hd1, hd2⟩

/-- Witness for C8 (amended): a failing vector append surfaces the error and
leaves the file unmarked; with the append healthy, ingest reports the count
even when the set persist fails. -/
theorem ingest_commit_ordering_witness :
    add_documents ⟨true, false⟩ (⟨[], some [], [], true⟩ : VSState)
        [⟨"Bacteria X degrades compound Y in soil samples",
          ⟨some "a.pdf", some 1, some "page_text", some "a.pdf"⟩⟩] =
      ((⟨[], some [], [], true⟩ : VSState), Except.error ()) ∧
    (add_documents ⟨false, true⟩ (⟨[], some [], [], true⟩ : VSState)
        [⟨"Bacteria X degrades compound Y in soil samples",
          ⟨some "a.pdf", some 1, some "page_text", some "a.pdf"⟩⟩]).2 =
      Except.ok 1 :=
  ⟨(ingest_commit_ordering ⟨true, false⟩ (⟨[], some [], [], true⟩ : VSState)
      [⟨"Bacteria X degrades compound Y in soil samples",
        ⟨some "a.pdf", some 1, some "page_text", some "a.pdf"⟩⟩]).1 rfl (by decide),
   by
    have h := (ingest_commit_ordering ⟨false, true⟩ (⟨[], some [], [], true⟩ : VSState)
      [⟨"Bacteria X degrades compound Y in soil samples",
        ⟨some "a.pdf", some 1, some "page_text", some "a.pdf"⟩⟩]).2.1 rfl
    simpa using h⟩

lemma isPref_append (p r : List Char) : isPref p (p ++ r) = true := by
  induction p with
  | nil => rfl
  | cons c p ih => simp [isPref, ih]

lemma findGo_at_start (p r : List Char) (i : Nat) (hp : p ≠ []) :
    findGo p (p ++ r) i = some i := by
  cases p with
  | nil => exact absurd rfl hp
  | cons c p' =>
    have h : isPref (c :: p') (c :: (p' ++ r)) = true := isPref_append (c :: p') r
    show findGo (c :: p') (c :: (p' ++ r)) i = some i
    simp [findGo, h]

lemma rfindGo_close (a : List Char) :
    ∀ (i : Nat) (best : Option Nat),
      rfindGo ('`' :: '`' :: '`' :: []) (a ++ ('`' :: '`' :: '`' :: [])) i best =
        some (i + a.length) := by
  induction a with
  | nil =>
    intro i best
    simp [rfindGo, isPref]
  | cons c a ih =>
    intro i best
    show rfindGo _ (c :: (a ++ _)) i best = _
    simp only [rfindGo]
    rw [ih]
    congr 1
    simp [List.length_cons]
    omega

lemma extract_json_fenced (mid : String) :
    extractJsonText ("```json" ++ mid ++ "```") = pyStrip mid := by
  have hdata : ("```json" ++ mid ++ "```").data =
      "```json".data ++ (mid.data ++ "```".data) := by
    simp [String.data_append]
  have hrdata : ("```json" ++ mid ++ "```").data =
      ("```json".data ++ mid.data) ++ ('`' :: '`' :: '`' :: []) := by
    rw [hdata, ← List.append_assoc]
  have hfind : findSub ("```json" ++ mid ++ "```") "```json" = some 0 := by
    unfold findSub
    rw [hdata]
    exact findGo_at_start _ _ 0 (by decide)
  have hlen : ("```json".data ++ mid.data).length = 7 + mid.data.length := by
    rw [List.length_append]
    rfl
  have hrfind : rfindSub ("```json" ++ mid ++ "```") "```" = some (7 + mid.data.length) := by
    unfold rfindSub
    rw [show ("```" : String).data = ('`' :: '`' :: '`' :: []) from rfl, hrdata,
      rfindGo_close]
    rw [hlen]
    simp
  have hcont : containsSub ("```json" ++ mid ++ "```") "```json" = true := by
    simp [containsSub, hfind]
  unfold extractJsonText
  rw [if_pos hcont, hfind, hrfind]
  have hslice : pySlice ("```json" ++ mid ++ "```") ((some 0).getD 0 + 7)
      ((some (7 + mid.data.length)).getD 0) = mid := by
    unfold pySlice
    simp only [Option.getD_some, Nat.zero_add]
    rw [hdata]
    have hdrop : ("```json".data ++ (mid.data ++ "```".data)).drop (0 + 7) =
        mid.data ++ "```".data := by
      have h7 : (0 + 7 : Nat) = "```json".data.length := rfl
      rw [h7]
      exact List.drop_left _ _
    rw [hdrop]
    have hm : 7 + mid.data.length - (0 + 7) = mid.data.length := by omega
    rw [hm]
    rw [List.take_left]
  show pyStrip (pySlice ("```json" ++ mid ++ "```") ((some 0).getD 0 + 7)
      ((some (7 + mid.data.length)).getD 0)) = pyStrip mid
  rw [hslice]

lemma extract_plain_fenced (mid : String)
    (hnj : containsSub ("```" ++ mid ++ "```") "```json" = false) :
    extractJsonText ("```" ++ mid ++ "```") = pyStrip mid := by
  have hdata : ("```" ++ mid ++ "```").data =
      "```".data ++ (mid.data ++ "```".data) := by
    simp [String.data_append]
  have hrdata : ("```" ++ mid ++ "```").data =
      ("```".data ++ mid.data) ++ ('`' :: '`' :: '`' :: []) := by
    rw [hdata, ← List.append_assoc]
  have hfind : findSub ("```" ++ mid ++ "```") "```" = some 0 := by
    unfold findSub
    rw [hdata]
    exact findGo_at_start _ _ 0 (by decide)
  have hlen : ("```".data ++ mid.data).length = 3 + mid.data.length := by
    rw [List.length_append]
    rfl
  have hrfind : rfindSub ("```" ++ mid ++ "```") "```" = some (3 + mid.data.length) := by
    unfold rfindSub
    rw [show ("```" : String).data = ('`' :: '`' :: '`' :: []) from rfl, hrdata,
      rfindGo_close]
    rw [hlen]
    simp
  have hcont : containsSub ("```" ++ mid ++ "```") "```" = true := by
    simp [containsSub, hfind]
  unfold extractJsonText
  rw [if_neg (by simp [hnj]), if_pos hcont, hfind, hrfind]
  have hslice : pySlice ("```" ++ mid ++ "```") ((some 0).getD 0 + 3)
      ((some (3 + mid.data.length)).getD 0) = mid := by
    unfold pySlice
    simp only [Option.getD_some, Nat.zero_add]
    rw [hdata]
    have hdrop : ("```".data ++ (mid.data ++ "```".data)).drop (0 + 3) =
        mid.data ++ "```".data := by
      have h3 : (0 + 3 : Nat) = "```".data.length := rfl
      rw [h3]
      exact List.drop_left _ _
    rw [hdrop]
    have hm : 3 + mid.data.length - (0 + 3) = mid.data.length := by omega
    rw [hm]
    rw [List.take_left]
  show pyStrip (pySlice ("```" ++ mid ++ "```") ((some 0).getD 0 + 3)
      ((some (3 + mid.data.length)).getD 0)) = pyStrip mid
  rw [hslice]

lemma extract_unfenced (mid : String)
    (h1 : containsSub mid "```json" = false) (h2 : containsSub mid "```" = false) :
    extractJsonText mid = pyStrip mid := by
  unfold extractJsonText
  rw [if_neg (by simp [h1]), if_neg (by simp [h2])]

/-- C4: the completion parser strips one optional fencing layer — a JSON
object wrapped in ```json ... ``` or ``` ... ``` fences parses to the same
object as the unfenced text — and any completion that still fails to parse
as JSON yields the fallback whose answer is the raw completion text, all
other fields empty, and confidence 0.5. -/
theorem parse_llm_response_fencing :
    (∀ (mid : String) (v : JVal),
      containsSub mid "```json" = false → containsSub mid "```" = false →
      jsonLoads (pyStrip mid) = some v →
      parse_llm_response ("```json" ++ mid ++ "```") = v ∧
      parse_llm_response mid = v) ∧
    (∀ (mid : String) (v : JVal),
      containsSub ("```" ++ mid ++ "```") "```json" = false →
      containsSub mid "```json" = false → containsSub mid "```" = false →
      jsonLoads (pyStrip mid) = some v →
      parse_llm_response ("```" ++ mid ++ "```") = v) ∧
    (∀ text : String, jsonLoads (extractJsonText text) = none →
      parse_llm_response text = JVal.jobj
        [("answer", JVal.jstr text), ("reasoning", JVal.jstr ""),
         ("hypothesis", JVal.jstr ""), ("suggestions", JVal.jarr []),
         ("sources", JVal.jarr []), ("confidence", JVal.jnum (1 / 2))]) := by
  refine ⟨?_, ?_, ?_⟩
  · intro mid v h1 h2 hv
    constructor
    · unfold parse_llm_response
      rw [extract_json_fenced, hv]
    · unfold parse_llm_response
      rw [extract_unfenced mid h1 h2, hv]
  · intro mid v hnj h1 h2 hv
    unfold parse_llm_response
    rw [extract_plain_fenced mid hnj, hv]
  · intro text h
    unfold parse_llm_response
    rw [h]
    rfl

/-- Witness for C4: the fenced and unfenced empty JSON object parse alike,
and a non-JSON completion falls back to the raw-text answer. -/
theorem parse_llm_response_fencing_witness :
    parse_llm_response ("```json" ++ "\x7b\x7d" ++ "```") = JVal.jobj [] ∧
    parse_llm_response "\x7b\x7d" = JVal.jobj [] ∧
    parse_llm_response ("```" ++ "\x7b\x7d" ++ "```") = JVal.jobj [] ∧
    parse_llm_response "this is not json" = JVal.jobj
      [("answer", JVal.jstr "this is not json"), ("reasoning", JVal.jstr ""),
       ("hypothesis", JVal.jstr ""), ("suggestions", JVal.jarr []),
       ("sources", JVal.jarr []), ("confidence", JVal.jnum (1 / 2))] :=
  ⟨(parse_llm_response_fencing.1 "\x7b\x7d" (JVal.jobj [])
      (by decide) (by decide) rfl).1,
   (parse_llm_response_fencing.1 "\x7b\x7d" (JVal.jobj [])
      (by decide) (by decide) rfl).2,
   parse_llm_response_fencing.2.1 "\x7b\x7d" (JVal.jobj [])
      (by decide) (by decide) (by decide) rfl,
   parse_llm_response_fencing.2.2 "this is not json" rfl⟩

/-- C5 counterexample: a completion that parses with `"sources": []`
(present but empty) leaves the state's sources empty — `dict.get` only
substitutes the retrieved-chunk metadata when the key is absent — so the
claim that an empty list is replaced by the metadata list is false. -/
theorem sources_empty_kept_counterexample :
    (generate_answer (Except.ok "\x7b\"sources\": []\x7d")
        (⟨"q", [⟨"chunk content", ⟨some "a.pdf", some 3, some "page_text", some "a.pdf"⟩⟩],
          "", "", "", [], [], [], 0⟩ : RAGState)).sources = [] ∧
    sourcesList ((⟨"q", [⟨"chunk content", ⟨some "a.pdf", some 3, some "page_text", some "a.pdf"⟩⟩],
          "", "", "", [], [], [], 0⟩ : RAGState)).retrieved_docs ≠ [] := by
  constructor
  · rfl
  · simp [sourcesList, sourcesFrom]

/-- C5 (amended): when the parsed completion lacks a `sources` key, the
state's sources defaults to the literal list of the retrieved chunks'
metadata records (index, source, page, type, pdf_name); when the key is
present but an empty list, the empty list is kept as-is. -/
theorem sources_default_amended (st : RAGState) (text : String)
    (kvs : List (String × JVal)) (a r htext : String) (sg : List String) (cf : ℚ)
    (hp : parse_llm_response text = JVal.jobj kvs)
    (ha : getStrField kvs "answer" "Unable to generate answer" = some a)
    (hr : getStrField kvs "reasoning" "" = some r)
    (hh : getStrField kvs "hypothesis" "" = some htext)
    (hs : getStrListField kvs "suggestions" = some sg)
    (hc : getNumField kvs "confidence" 0 = some cf) :
    (jGet kvs "sources" = none →
      (generate_answer (Except.ok text) st).sources = sourcesList st.retrieved_docs) ∧
    (jGet kvs "sources" = some (JVal.jarr []) →
      (generate_answer (Except.ok text) st).sources = []) := by
  constructor
  · intro hsrc
    have hso : getSourcesField kvs (sourcesList st.retrieved_docs) =
        some (sourcesList st.retrieved_docs) := by
      simp [getSourcesField, hsrc]
    simp [generate_answer, hp, ha, hr, hh, hs, hc, hso]
  · intro hsrc
    have hso : getSourcesField kvs (sourcesList st.retrieved_docs) = some [] := by
      simp [getSourcesField, hsrc]
    simp [generate_answer, hp, ha, hr, hh, hs, hc, hso]

/-- Witness for C5 (amended): a parsed completion with no `sources` key
defaults to the retrieved chunks' metadata list. -/
theorem sources_default_amended_witness :
    (generate_answer (Except.ok "\x7b\x7d")
        (⟨"q", [⟨"chunk content", ⟨some "a.pdf", some 3, some "page_text", some "a.pdf"⟩⟩],
          "", "", "", [], [], [], 0⟩ : RAGState)).sources =
      sourcesList ((⟨"q", [⟨"chunk content", ⟨some "a.pdf", some 3, some "page_text", some "a.pdf"⟩⟩],
          "", "", "", [], [], [], 0⟩ : RAGState)).retrieved_docs :=
  (sources_default_amended _ "\x7b\x7d" [] "Unable to generate answer" "" "" [] 0
    rfl rfl rfl rfl rfl rfl).1 rfl

/-- C9 counterexample: the result dictionary of `GraphBuilder.run` carries
the key `confidence_score`, not `confidence`, and its value is whatever
number the parsed completion supplied — here 7, outside [0,1]. -/
theorem answer_contract_counterexample :
    ((graphRun (fun _ => []) (Except.ok "\x7b\"confidence\": 7\x7d") "q" []).map
        Prod.fst).contains "confidence" = false ∧
    numAt (graphRun (fun _ => []) (Except.ok "\x7b\"confidence\": 7\x7d") "q" [])
        "confidence_score" = some 7 ∧
    ¬ ((7 : ℚ) ≤ 1) := by
  refine ⟨by decide, by decide, by norm_num⟩

/-- C9 (amended): every result of a pipeline run is a record with exactly the
keys answer, reasoning, hypothesis, suggestions, sources, retrieved_docs,
confidence_score and question (in the source's order); suggestions, sources
and retrieved_docs are lists, confidence_score is a number (0.0 on fallback,
otherwise whatever the parsed completion supplied, not clamped to [0,1]), and
question echoes the input. -/
theorem answer_contract_amended (search : String → List Document)
    (llmResult : Except Unit String) (question : String)
    (chat_history : List (String × String)) :
    (graphRun search llmResult question chat_history).map Prod.fst =
      ["answer", "reasoning", "hypothesis", "suggestions", "sources",
       "retrieved_docs", "confidence_score", "question"] ∧
    (∃ l, ("suggestions", RVal.vstrList l) ∈
        graphRun search llmResult question chat_history) ∧
    (∃ l, ("sources", RVal.vjList l) ∈
        graphRun search llmResult question chat_history) ∧
    (∃ l, ("retrieved_docs", RVal.vdocs l) ∈
        graphRun search llmResult question chat_history) ∧
    (∃ c, ("confidence_score", RVal.vnum c) ∈
        graphRun search llmResult question chat_history) ∧
    ("question", RVal.vstr question) ∈
        graphRun search llmResult question chat_history := by
  refine ⟨rfl, ?_, ?_, ?_, ?_, ?_⟩
  · exact ⟨(generate_answer llmResult
        (retrieve_docs search (initRAGState question chat_history))).suggestions,
      by simp [graphRun]⟩
  · exact ⟨(generate_answer llmResult
        (retrieve_docs search (initRAGState question chat_history))).sources,
      by simp [graphRun]⟩
  · exact ⟨(generate_answer llmResult
        (retrieve_docs search (initRAGState question chat_history))).retrieved_docs,
      by simp [graphRun]⟩
  · exact ⟨(generate_answer llmResult
        (retrieve_docs search (initRAGState question chat_history))).confidence_score,
      by simp [graphRun]⟩
  · simp [graphRun]
